import Mathlib

/-!
Shallow embedding of `src/res/gecko.py` ("Renders GDB view of the Gecko CPU
core"): the RISC-V instruction decoder dispatch, the register-name table, the
signal-path resolvers, the register- and instruction-panel renderers, and the
`main` entry point, together with theorems about the claims of the
specification.

Conventions of the embedding:
* Python integers are `Nat` where the source only ever holds non-negative
  values (waveform vector values, loop indices) and `Int` where the source can
  go negative (`pc_value + offset`, the `front - rear` subtraction).
* The mutable character grid (`buffer.set_cell`) is modelled as an explicit
  write trace: each `set_cell` appends one `(column, row, char)` triple.
* Python exceptions are modelled with `Except`: `MachineDecodeError(word)`
  becomes `Except.error word`, and the renderer functions return
  `Except GeckoError Buffer`, failing at exactly the places where the Python
  code would raise (an external lookup returning `None` followed by an
  attribute access).
* The `riscvmodel` instruction catalogs (`get_insns`) are external to this
  repository; the decoder is therefore embedded parametrically in the compact
  catalog (a list of classes with a `_match` predicate) and in the
  variant-indexed standard catalog (classes with a `field_opcode` value and a
  `match` predicate).  A decoded instruction is represented by its rendered
  string (`str(inst)` is all the renderer uses).
-/

/-- ISA variant selector (`riscvmodel.variant.Variant`); only its identity is
used by the embedded code, so a plain name suffices. -/
def Variant := String

/-- The default base-integer variant `RV32I` (the Python default argument of
`decode`). -/
def RV32I : Variant := "RV32I"

/-- A compact (`InstructionCType`) instruction class of the catalog: its
`_match(word)` class-method and the rendering `str(i)` of the instance obtained
by `i = icls(); i.decode(word)`. -/
structure CInsn where
  cmatch : Nat → Bool
  cdecode : Nat → String

/-- A standard instruction class of the catalog: its `field_opcode.value`, its
`match(word)` class-method, and the rendering of the decoded instance. -/
structure SInsn where
  opcodeVal : Nat
  smatch : Nat → Bool
  sdecode : Nat → String

/-- Embeds `decode(word, variant)` from `src/res/gecko.py` lines 16-31, parametric in
the external catalogs: `compact` is `get_insns(cls=InstructionCType)` and
`std v` is `get_insns(variant=v)`.  If the two low bits of `word` are not
`11`, the first compact class whose `_match` accepts the word decodes it;
otherwise the first class of the variant's catalog whose declared opcode field
equals `word & 0x7F` and whose `match` accepts the word decodes it.  A failed
scan raises `MachineDecodeError(word)`, i.e. returns `Except.error word`. -/
def decode (compact : List CInsn) (std : Variant → List SInsn)
    (word : Nat) (variant : Variant) : Except Nat String :=
  if word &&& 0x3 ≠ 3 then
    match compact.find? (fun icls => icls.cmatch word) with
    | some icls => .ok (icls.cdecode word)
    | none => .error word
  else
    let opcode := word &&& 0x7F
    match (std variant).find? (fun icls =>
        icls.opcodeVal == opcode && icls.smatch word) with
    | some icls => .ok (icls.sdecode word)
    | none => .error word

/-- The scan of the compact catalog alone (the body of the first branch of
`decode`). -/
def compactScan (compact : List CInsn) (word : Nat) : Except Nat String :=
  match compact.find? (fun icls => icls.cmatch word) with
  | some icls => .ok (icls.cdecode word)
  | none => .error word

/-- The scan of one standard catalog alone, filtered by the extracted opcode
(the body of the second branch of `decode`). -/
def stdScan (cat : List SInsn) (opcode word : Nat) : Except Nat String :=
  match cat.find? (fun icls => icls.opcodeVal == opcode && icls.smatch word) with
  | some icls => .ok (icls.sdecode word)
  | none => .error word

/-- The register ABI-name table of `get_reg_name` (lines 35-68). -/
def reg_name : List String :=
  ["x0", "ra", "sp", "gp", "tp", "t0", "t1", "t2",
   "s0", "s1", "a0", "a1", "a2", "a3", "a4", "a5",
   "a6", "a7", "s2", "s3", "s4", "s5", "s6", "s7",
   "s8", "s9", "s10", "s11", "t3", "t4", "t5", "t6"]

/-- Embeds `get_reg_name(reg_num)` (lines 34-69) with Python list-index semantics on
the 32-entry table: an index in `[0, 31]` reads directly, a negative index in
`[-32, -1]` wraps to `index + 32`, and anything else raises `IndexError`
(modelled as `none`). -/
def get_reg_name (reg_num : Int) : Option String :=
  if 0 ≤ reg_num ∧ reg_num < 32 then reg_name.get? reg_num.toNat
  else if -32 ≤ reg_num ∧ reg_num < 0 then reg_name.get? (reg_num + 32).toNat
  else none

/-- Embeds `get_reg_path(reg_num)` (lines 72-73). -/
def get_reg_path (reg_num : Nat) : String :=
  "TOP.gecko_nano_wrapper.inst.core.gecko_decode_inst.regfile.register_file_inst.xilinx_distributed_ram_inst.data[" ++ toString reg_num ++ "]"

/-- Embeds `get_reg_status_front_path(reg_num)` (lines 76-77). -/
def get_reg_status_front_path (reg_num : Nat) : String :=
  "TOP.gecko_nano_wrapper.inst.core.gecko_decode_inst.regfile.register_status_front_inst.xilinx_distributed_ram_inst.data[" ++ toString reg_num ++ "]"

/-- Embeds `get_reg_status_rear_path(reg_num)` (lines 80-81). -/
def get_reg_status_rear_path (reg_num : Nat) : String :=
  "TOP.gecko_nano_wrapper.inst.core.gecko_decode_inst.regfile.register_status_rear_inst.xilinx_distributed_ram_inst.data[" ++ toString reg_num ++ "]"

/-- Embeds `get_pc_path()` (lines 84-85). -/
def get_pc_path : String :=
  "TOP.gecko_nano_wrapper.inst.core.gecko_fetch_inst.pc"

/-- Embeds `get_mem_path(addr)` (lines 88-89); the address is an `Int` because the
caller computes `pc_value + offset` with offsets down to `-3`. -/
def get_mem_path (addr : Int) : String :=
  "TOP.gecko_nano_wrapper.inst.mem.gen_xilinx.xilinx_block_ram_double_inst.data[" ++ toString addr ++ "]"

/-- The hazard-depth computation of line 109:
`(reg_status_front_value - reg_status_rear_value) & 0x7`, on Python integers
(two's-complement bitwise AND, so a negative difference wraps). -/
def reg_status (front rear : Nat) : Int :=
  Int.land ((front : Int) - (rear : Int)) 0x7

/-- The character-grid surface supplied by the host viewer, modelled as a
write trace: `set_cell` appends one `(column, row, char)` triple and
`get_width` reads the fixed width. -/
structure Buffer where
  width : Nat
  cells : List (Nat × Nat × Char)

/-- Embeds `buffer.set_cell(x, y, c)`. -/
def Buffer.set_cell (b : Buffer) (x y : Nat) (c : Char) : Buffer :=
  { b with cells := b.cells ++ [(x, y, c)] }

/-- Embeds `buffer.get_width()`. -/
def Buffer.get_width (b : Buffer) : Nat := b.width

/-- A signal descriptor returned by `vcd_header.get_variable`; the embedded
code only ever calls `.get_idcode()` on it. -/
structure Signal where
  idcode : Nat

/-- The external VCD-header collaborator: `get_variable(path)` yields a signal
descriptor, or `None` when the path does not resolve. -/
structure VcdHeader where
  get_variable : String → Option Signal

/-- The external waveform collaborator.  `search_value` fuses the source's
`search_value(idcode, timestamp_index).get_vector().get_value()` chain into one
optional numeric result: `none` models either the search result or its vector
being `None` (both make the Python attribute access raise). -/
structure Waveform where
  search_timestamp : Nat → Nat → Option Nat
  get_timestamp : Nat → Nat
  search_value : Nat → Nat → Option Nat

/-- The named resolution failures of the render pass (spec §7): the explicit
`Exception("Timestamp index not found!")` of `main`, and the failures raised
when `get_variable` or the value search returns nothing for a path. -/
inductive GeckoError where
  | timestampNotFound
  | signalNotFound (path : String)
  | valueNotFound (path : String)
  deriving DecidableEq, Repr

/-- The signal-value lookup idiom used throughout `get_reg_info` and
`get_instruction_info`:
`signal = vcd_header.get_variable(path);`
`result = waveform.search_value(signal.get_idcode(), timestamp_index);`
`result.get_vector().get_value()`. -/
def lookupValue (waveform : Waveform) (vcd_header : VcdHeader)
    (path : String) (timestamp_index : Nat) : Except GeckoError Nat :=
  match vcd_header.get_variable path with
  | none => .error (.signalNotFound path)
  | some signal =>
    match waveform.search_value signal.idcode timestamp_index with
    | none => .error (.valueNotFound path)
    | some v => .ok v

/-- Python `str.ljust(n)`: pad on the right with spaces to length `n`. -/
def ljust (s : String) (n : Nat) : String :=
  s ++ String.mk (List.replicate (n - s.length) ' ')

/-- Python `"0x{:08x}".format(n)`: lower-case hexadecimal, zero-padded on the
left to at least eight digits, with the literal `0x` prefix. -/
def hex8 (n : Nat) : String :=
  "0x" ++ String.mk (List.replicate (8 - (Nat.toDigits 16 n).length) '0' ++
    Nat.toDigits 16 n)

/-- The register line of `get_reg_info` (lines 107-110):
`f"{reg_num} ({get_reg_name(reg).ljust(3)}) {reg_value} ({reg_status})"` with
`reg_num = f"x{reg}".ljust(3)` and the hazard depth `reg_status`. -/
def reg_info_string (reg value front rear : Nat) : String :=
  ljust ("x" ++ toString reg) 3 ++ " (" ++
    ljust ((get_reg_name (reg : Int)).getD "") 3 ++ ") " ++ hex8 value ++
    " (" ++ toString (reg_status front rear) ++ ")"

/-- The `for i, char in enumerate(info): buffer.set_cell(x0 + i, y, char)`
loop. -/
def writeString (b : Buffer) (x0 y : Nat) (s : String) : Buffer :=
  s.toList.enum.foldl (fun buf p => buf.set_cell (x0 + p.1) y p.2) b

/-- The dash/header row loop (lines 112-117 and 131-136):
`for x in range(buffer.get_width()):` write `header[x]` when `x` is inside the
header text and `"-"` otherwise. -/
def writeHeaderRow (b : Buffer) (line : Nat) (header : String) : Buffer :=
  (List.range b.get_width).foldl
    (fun buf x => buf.set_cell x line (header.toList.getD x '-')) b

/-- One iteration of the `for reg in range(32)` loop of `get_reg_info`
(lines 93-121): three signal lookups, the formatted register message, the
full-width `--Registers` header row, then the message written at column
`(reg // 8) * 32`, row `reg % 8 + line + 1`. -/
def reg_info_step (waveform : Waveform) (vcd_header : VcdHeader)
    (timestamp_index line : Nat) (buffer : Buffer) (reg : Nat) :
    Except GeckoError Buffer := do
  let reg_value ← lookupValue waveform vcd_header (get_reg_path reg)
    timestamp_index
  let reg_status_front_value ← lookupValue waveform vcd_header
    (get_reg_status_front_path reg) timestamp_index
  let reg_status_rear_value ← lookupValue waveform vcd_header
    (get_reg_status_rear_path reg) timestamp_index
  let info := reg_info_string reg reg_value reg_status_front_value
    reg_status_rear_value
  let buffer := writeHeaderRow buffer line "--Registers"
  return writeString buffer ((reg / 8) * 32) (reg % 8 + line + 1) info

/-- Embeds `get_reg_info(waveform, vcd_header, buffer, timestamp_index, line=0)`
(lines 92-121). -/
def get_reg_info (waveform : Waveform) (vcd_header : VcdHeader)
    (buffer : Buffer) (timestamp_index : Nat) (line : Nat := 0) :
    Except GeckoError Buffer :=
  (List.range 32).foldlM
    (reg_info_step waveform vcd_header timestamp_index line) buffer

/-- The `try: inst = decode(mem_value) except: inst = "<unknown>"` recovery of
lines 149-152, followed by `str(inst)`: a decode failure is replaced by the
literal placeholder.  `decode` is called with its default variant `RV32I`. -/
def instDisplay (compact : List CInsn) (std : Variant → List SInsn)
    (mem_value : Nat) : String :=
  match decode compact std mem_value RV32I with
  | .ok s => s
  | .error _ => "<unknown>"

/-- The instruction line of `get_instruction_info` (lines 153-155):
`f"{header}{pc_offset} ({mem_value}) {str(inst)}"` after both numbers are
reformatted with `"0x{:08x}".format`. -/
def inst_info_string (mark : String) (pc_offset : Int) (mem_value : Nat)
    (inst : String) : String :=
  mark ++ hex8 pc_offset.toNat ++ " (" ++ hex8 mem_value ++ ") " ++ inst

/-- One iteration of the `for i, offset in enumerate(range(-3, 4))` loop of
`get_instruction_info` (lines 138-157): `offset = i - 3`; a negative
`pc_value + offset` is skipped (`continue`) with no write at all, otherwise
the memory word is looked up, decoded (with the `<unknown>` fallback), and
the formatted line is written at row `line + i + 1` starting at column 0. -/
def inst_info_step (compact : List CInsn) (std : Variant → List SInsn)
    (waveform : Waveform) (vcd_header : VcdHeader)
    (pc_value timestamp_index line : Nat) (buffer : Buffer) (i : Nat) :
    Except GeckoError Buffer :=
  let offset : Int := (i : Int) - 3
  let pc_offset : Int := (pc_value : Int) + offset
  if pc_offset < 0 then .ok buffer
  else do
    let mem_value ← lookupValue waveform vcd_header (get_mem_path pc_offset)
      timestamp_index
    let mark := if offset = 0 then ">" else "-"
    let inst := instDisplay compact std mem_value
    return writeString buffer 0 (line + i + 1)
      (inst_info_string mark pc_offset mem_value inst)

/-- Embeds `get_instruction_info(waveform, vcd_header, buffer, timestamp_index,
line=0)` (lines 124-157), parametric in the external catalogs used by its
`decode` call. -/
def get_instruction_info (compact : List CInsn) (std : Variant → List SInsn)
    (waveform : Waveform) (vcd_header : VcdHeader)
    (buffer : Buffer) (timestamp_index : Nat) (line : Nat := 0) :
    Except GeckoError Buffer := do
  let pc_value ← lookupValue waveform vcd_header get_pc_path timestamp_index
  let buffer := writeHeaderRow buffer line "--Instructions"
  (List.range 7).foldlM
    (inst_info_step compact std waveform vcd_header pc_value timestamp_index
      line) buffer

/-- Modelled from the spec: the numeric value of the host enumeration member
`WaveformSearchMode.Before` (`int(WaveformSearchMode.Before)`), supplied by
the external `nalu` module which is not under `src/`; the embedded code passes
it through to `search_timestamp` and never inspects it. -/
def WaveformSearchModeBefore : Nat := 1

/-- Embeds `main(buffer, waveform, vcd_header, cursor)` (lines 160-178): resolve the
timestamp index (nearest-before), raise `Timestamp index not found!` when it
is `None`, write the two timestamp header lines at rows 1 and 2, then render
the register panel at `line=8` and the instruction panel at `line=20`.
(The name is qualified as `Gecko.main` because a bare `main` is reserved.) -/
def Gecko.main (compact : List CInsn) (std : Variant → List SInsn)
    (buffer : Buffer) (waveform : Waveform) (vcd_header : VcdHeader)
    (cursor : Nat) : Except GeckoError Buffer := do
  let timestamp_index ←
    match waveform.search_timestamp cursor WaveformSearchModeBefore with
    | none => Except.error GeckoError.timestampNotFound
    | some t => Except.ok t
  let buffer := writeString buffer 0 1
    ("Timestamp:       " ++ toString (waveform.get_timestamp timestamp_index))
  let buffer := writeString buffer 0 2
    ("Timestamp Index: " ++ toString timestamp_index)
  let buffer ← get_reg_info waveform vcd_header buffer timestamp_index 8
  get_instruction_info compact std waveform vcd_header buffer timestamp_index 20

/-! ## An environment in which every external lookup succeeds

To reason about the renderers independently of lookup failures, we build the
collaborators from an arbitrary total valuation `f` of signal paths: every
path resolves to a signal whose idcode is its value, and every value search
returns that idcode.  `lookupValue` then returns exactly `f path`. -/

/-- A VCD header in which every path resolves (to a signal whose idcode is the
path's value under `f`). -/
def envHeader (f : String → Nat) : VcdHeader :=
  ⟨fun path => some ⟨f path⟩⟩

/-- A waveform in which every timestamp search returns `t0`, `get_timestamp`
is an arbitrary total function `g`, and every value search succeeds. -/
def envWaveform (g : Nat → Nat) (t0 : Nat) : Waveform :=
  ⟨fun _ _ => some t0, g, fun idcode _ => some idcode⟩

theorem lookupValue_env (f : String → Nat) (g : Nat → Nat) (t0 : Nat)
    (path : String) (ts : Nat) :
    lookupValue (envWaveform g t0) (envHeader f) path ts = .ok (f path) := rfl

/-! ## Write-trace bookkeeping -/

/-- The write trace of `writeString b x0 y s`. -/
def stringWrites (x0 y : Nat) (s : String) : List (Nat × Nat × Char) :=
  s.toList.enum.map (fun p => (x0 + p.1, y, p.2))

/-- The write trace of `writeHeaderRow` on a buffer of width `width`. -/
def headerRowWrites (width line : Nat) (header : String) :
    List (Nat × Nat × Char) :=
  (List.range width).map (fun x => (x, line, header.toList.getD x '-'))

theorem foldl_set_cell_enum (x0 y : Nat) (l : List (Nat × Char)) :
    ∀ b : Buffer,
      l.foldl (fun buf p => buf.set_cell (x0 + p.1) y p.2) b =
        ⟨b.width, b.cells ++ l.map (fun p => (x0 + p.1, y, p.2))⟩ := by
  induction l with
  | nil => intro b; simp
  | cons a l ih =>
    intro b
    rw [List.foldl_cons, ih]
    simp [Buffer.set_cell]

theorem writeString_eq (b : Buffer) (x0 y : Nat) (s : String) :
    writeString b x0 y s = ⟨b.width, b.cells ++ stringWrites x0 y s⟩ :=
  foldl_set_cell_enum x0 y s.toList.enum b

theorem foldl_set_cell_range (line : Nat) (h : String) (l : List Nat) :
    ∀ b : Buffer,
      l.foldl (fun buf x => buf.set_cell x line (h.toList.getD x '-')) b =
        ⟨b.width, b.cells ++ l.map (fun x => (x, line, h.toList.getD x '-'))⟩ := by
  induction l with
  | nil => intro b; simp
  | cons a l ih =>
    intro b
    rw [List.foldl_cons, ih]
    simp [Buffer.set_cell]

theorem writeHeaderRow_eq (b : Buffer) (line : Nat) (h : String) :
    writeHeaderRow b line h =
      ⟨b.width, b.cells ++ headerRowWrites b.width line h⟩ :=
  foldl_set_cell_range line h (List.range b.get_width) b

/-- A monadic fold whose every step succeeds and appends a buffer-independent
write list produces the concatenation of those write lists. -/
theorem foldlM_ok_append {α : Type} (step : Buffer → α → Except GeckoError Buffer)
    (w : Nat → α → List (Nat × Nat × Char))
    (hstep : ∀ b a, step b a = .ok ⟨b.width, b.cells ++ w b.width a⟩) :
    ∀ (l : List α) (b : Buffer),
      l.foldlM step b = .ok ⟨b.width, b.cells ++ (l.map (w b.width)).flatten⟩ := by
  intro l
  induction l with
  | nil => intro b; simp only [List.foldlM_nil, List.map_nil, List.flatten_nil,
      List.append_nil]; rfl
  | cons a l ih =>
    intro b
    rw [List.foldlM_cons, hstep]
    show (List.foldlM step ⟨b.width, b.cells ++ w b.width a⟩ l) = _
    rw [ih]
    simp

theorem exceptOkBind {ε α β : Type} (x : α) (k : α → Except ε β) :
    (Except.ok x >>= k) = k x := rfl

/-- The write trace of one register iteration under a total valuation `f`:
the full-width `--Registers` row at `line`, then the register message at
column `(reg / 8) * 32`, row `reg % 8 + line + 1`. -/
def regWrites (f : String → Nat) (width line reg : Nat) :
    List (Nat × Nat × Char) :=
  headerRowWrites width line "--Registers" ++
    stringWrites ((reg / 8) * 32) (reg % 8 + line + 1)
      (reg_info_string reg (f (get_reg_path reg))
        (f (get_reg_status_front_path reg))
        (f (get_reg_status_rear_path reg)))

theorem reg_info_step_env (f : String → Nat) (g : Nat → Nat)
    (t0 ts line : Nat) (b : Buffer) (reg : Nat) :
    reg_info_step (envWaveform g t0) (envHeader f) ts line b reg =
      .ok ⟨b.width, b.cells ++ regWrites f b.width line reg⟩ := by
  show Except.ok (writeString (writeHeaderRow b line "--Registers")
      ((reg / 8) * 32) (reg % 8 + line + 1)
      (reg_info_string reg (f (get_reg_path reg))
        (f (get_reg_status_front_path reg))
        (f (get_reg_status_rear_path reg)))) = _
  rw [writeHeaderRow_eq, writeString_eq]
  simp [regWrites]

/-- The full write trace of the register panel under a total valuation. -/
def regPanelWrites (f : String → Nat) (width line : Nat) :
    List (Nat × Nat × Char) :=
  ((List.range 32).map (regWrites f width line)).flatten

theorem get_reg_info_env (f : String → Nat) (g : Nat → Nat)
    (t0 ts line : Nat) (b : Buffer) :
    get_reg_info (envWaveform g t0) (envHeader f) b ts line =
      .ok ⟨b.width, b.cells ++ regPanelWrites f b.width line⟩ :=
  foldlM_ok_append _ (fun width reg => regWrites f width line reg)
    (fun b' reg => reg_info_step_env f g t0 ts line b' reg) (List.range 32) b

/-- The write trace of one instruction-window iteration under a total
valuation: nothing when `pc_value + (i - 3)` is negative, otherwise the
formatted line at row `line + i + 1`. -/
def instRowWrites (compact : List CInsn) (std : Variant → List SInsn)
    (f : String → Nat) (line pc_value i : Nat) : List (Nat × Nat × Char) :=
  if (pc_value : Int) + ((i : Int) - 3) < 0 then []
  else
    stringWrites 0 (line + i + 1)
      (inst_info_string (if (i : Int) - 3 = 0 then ">" else "-")
        ((pc_value : Int) + ((i : Int) - 3))
        (f (get_mem_path ((pc_value : Int) + ((i : Int) - 3))))
        (instDisplay compact std
          (f (get_mem_path ((pc_value : Int) + ((i : Int) - 3))))))

theorem inst_info_step_env (compact : List CInsn) (std : Variant → List SInsn)
    (f : String → Nat) (g : Nat → Nat) (t0 pc_value ts line : Nat)
    (b : Buffer) (i : Nat) :
    inst_info_step compact std (envWaveform g t0) (envHeader f) pc_value ts
        line b i =
      .ok ⟨b.width, b.cells ++ instRowWrites compact std f line pc_value i⟩ := by
  rw [inst_info_step, instRowWrites]
  by_cases hneg : (pc_value : Int) + ((i : Int) - 3) < 0
  · rw [if_pos hneg, if_pos hneg]
    simp
  · rw [if_neg hneg, if_neg hneg]
    show Except.ok (writeString b 0 (line + i + 1) _) = _
    rw [writeString_eq]

/-- The full write trace of the instruction panel under a total valuation:
the `--Instructions` row, then the seven (or fewer, when addresses go
negative) instruction rows. -/
def instPanelWrites (compact : List CInsn) (std : Variant → List SInsn)
    (f : String → Nat) (width line pc_value : Nat) :
    List (Nat × Nat × Char) :=
  headerRowWrites width line "--Instructions" ++
    ((List.range 7).map (instRowWrites compact std f line pc_value)).flatten

theorem get_instruction_info_env (compact : List CInsn)
    (std : Variant → List SInsn) (f : String → Nat) (g : Nat → Nat)
    (t0 ts line : Nat) (b : Buffer) :
    get_instruction_info compact std (envWaveform g t0) (envHeader f) b ts
        line =
      .ok ⟨b.width, b.cells ++
        instPanelWrites compact std f b.width line (f get_pc_path)⟩ := by
  show ((List.range 7).foldlM
      (inst_info_step compact std (envWaveform g t0) (envHeader f)
        (f get_pc_path) ts line)
      (writeHeaderRow b line "--Instructions")) = _
  rw [writeHeaderRow_eq,
    foldlM_ok_append _
      (fun _ i => instRowWrites compact std f line (f get_pc_path) i)
      (fun b' i =>
        inst_info_step_env compact std f g t0 (f get_pc_path) ts line b' i)]
  simp [instPanelWrites]

/-- The full write trace of one render pass of `Gecko.main` under a total
valuation: the two timestamp lines, the register panel at `line=8`, the
instruction panel at `line=20`. -/
def mainWrites (compact : List CInsn) (std : Variant → List SInsn)
    (f : String → Nat) (g : Nat → Nat) (t0 width : Nat) :
    List (Nat × Nat × Char) :=
  stringWrites 0 1 ("Timestamp:       " ++ toString (g t0)) ++
    stringWrites 0 2 ("Timestamp Index: " ++ toString t0) ++
    regPanelWrites f width 8 ++
    instPanelWrites compact std f width 20 (f get_pc_path)

theorem main_env (compact : List CInsn) (std : Variant → List SInsn)
    (f : String → Nat) (g : Nat → Nat) (t0 : Nat) (b : Buffer)
    (cursor : Nat) :
    Gecko.main compact std b (envWaveform g t0) (envHeader f) cursor =
      .ok ⟨b.width, b.cells ++ mainWrites compact std f g t0 b.width⟩ := by
  show (get_reg_info (envWaveform g t0) (envHeader f)
      (writeString
        (writeString b 0 1 ("Timestamp:       " ++ toString (g t0)))
        0 2 ("Timestamp Index: " ++ toString t0))
      t0 8 >>= fun buffer =>
        get_instruction_info compact std (envWaveform g t0) (envHeader f)
          buffer t0 20) = _
  rw [writeString_eq, writeString_eq, get_reg_info_env, exceptOkBind,
    get_instruction_info_env]
  simp [mainWrites]

/-! ## The three-bit wrap of the hazard depth (C2) -/

theorem ldiff_seven (m : Nat) : Nat.ldiff 7 m = 7 - m % 8 := by
  apply Nat.eq_of_testBit_eq
  intro i
  rw [Nat.testBit_ldiff]
  by_cases h3 : i < 3
  · have hm : m.testBit i = (m % 8).testBit i := by
      rw [show (8 : Nat) = 2 ^ 3 by norm_num, Nat.testBit_mod_two_pow]
      simp [h3]
    rw [hm]
    have h8 : m % 8 < 8 := Nat.mod_lt _ (by norm_num)
    set k := m % 8 with hk
    clear_value k
    interval_cases k <;> interval_cases i <;> decide
  · have h7 : (2 : Nat) ^ 3 ≤ 2 ^ i := Nat.pow_le_pow_right (by norm_num) (by omega)
    have h1 : Nat.testBit 7 i = false := Nat.testBit_lt_two_pow (by omega)
    have h2 : Nat.testBit (7 - m % 8) i = false := by
      apply Nat.testBit_lt_two_pow
      have : 7 - m % 8 ≤ 7 := Nat.sub_le _ _
      omega
    rw [h1, h2]
    rfl

/-- Python's `x & 7` on an arbitrary (possibly negative) integer is the
floor/Euclidean remainder modulo 8. -/
theorem land_seven_eq_emod (a : Int) : Int.land a 7 = a % 8 := by
  cases a with
  | ofNat m =>
    show ((m &&& 7 : Nat) : Int) = (m : Int) % 8
    have hm : m &&& 7 = m % 8 := by
      have h := Nat.and_pow_two_sub_one_eq_mod m 3
      norm_num at h
      exact h
    rw [hm]
    omega
  | negSucc m =>
    show ((Nat.ldiff 7 m : Nat) : Int) = Int.negSucc m % 8
    rw [ldiff_seven, Int.negSucc_eq]
    omega

/-! ## Claim theorems -/

/-- C2: for every register's raw counter values `front` and `rear`, the
hazard depth computed on line 109 (`(front - rear) & 0x7` on Python integers)
equals `(front - rear) mod 8`, always lies in `[0, 7]` even when
`front < rear` makes the raw subtraction negative (a three-bit wraparound,
not a clamp), and in particular `front = 1, rear = 6` yields depth 3. -/
theorem reg_status_is_mod_eight (front rear : Nat) :
    reg_status front rear = ((front : Int) - (rear : Int)) % 8 ∧
    0 ≤ reg_status front rear ∧ reg_status front rear < 8 ∧
    reg_status 1 6 = 3 := by
  have h := land_seven_eq_emod ((front : Int) - (rear : Int))
  refine ⟨h, ?_, ?_, by rw [reg_status, land_seven_eq_emod]; decide⟩
  · rw [reg_status, h]; omega
  · rw [reg_status, h]; omega

/-- C1: `decode` consults exactly one catalog, selected by the two
least-significant bits of the word.  If bits 1:0 are not `11` the word is
matched only against the compact catalog — the result is the compact-only
scan and is independent of the standard catalogs; if bits 1:0 are `11` the
word is matched only against the standard catalog of the requested variant,
filtered by the 7-bit opcode field (bits 6:0) — the result is the
opcode-filtered standard scan and is independent of the compact catalog. -/
theorem decode_catalog_partition (compact compact' : List CInsn)
    (std std' : Variant → List SInsn) (word : Nat) (variant : Variant) :
    (word &&& 0x3 ≠ 3 →
      decode compact std word variant = compactScan compact word ∧
      decode compact std word variant = decode compact std' word variant) ∧
    (word &&& 0x3 = 3 →
      decode compact std word variant =
        stdScan (std variant) (word &&& 0x7F) word ∧
      decode compact std word variant = decode compact' std word variant) := by
  constructor
  · intro h
    rw [decode, if_pos h, decode, if_pos h, compactScan]
    exact ⟨rfl, rfl⟩
  · intro h
    rw [decode, if_neg (by simpa using h), decode, if_neg (by simpa using h),
      stdScan]
    exact ⟨rfl, rfl⟩

theorem decode_catalog_partition_witness :
    ((0x00000001 : Nat) &&& 0x3 ≠ 3 ∧
      decode [] (fun _ => []) 0x00000001 RV32I = compactScan [] 0x00000001) ∧
    ((0x00000013 : Nat) &&& 0x3 = 3 ∧
      decode [] (fun _ => []) 0x00000013 RV32I =
        stdScan ((fun _ => ([] : List SInsn)) RV32I)
          (0x00000013 &&& 0x7F) 0x00000013) :=
  ⟨⟨by decide,
    ((decode_catalog_partition [] [] (fun _ => []) (fun _ => []) 0x00000001
      RV32I).1 (by decide)).1⟩,
   ⟨by decide,
    ((decode_catalog_partition [] [] (fun _ => []) (fun _ => []) 0x00000013
      RV32I).2 (by decide)).1⟩⟩

/-- Modelled from the spec: the compact instruction catalog itself
(`riscvmodel`'s `InstructionCType` classes, reached through `get_insns`) is an
external dependency whose source is not under `src/`; the spec's testable
property "Decode of an all-zero word (`0x00000000`) must fail (no legal
opcode 0 pattern)" is modelled as the property that no compact pattern
matches the all-zero word. -/
def noCompactPatternMatchesZero (compact : List CInsn) : Prop :=
  ∀ icls ∈ compact, icls.cmatch 0 = false

/-- C5: `decode` applied to the all-zero word (which has bits 1:0 ≠ `11` and
is therefore checked against the compact catalog, in which no pattern matches
it) under the default base-integer variant fails with `MachineDecodeError`
carrying the word `0` — `Except.error 0` — rather than returning any
instruction. -/
theorem decode_zero_word_fails (compact : List CInsn)
    (std : Variant → List SInsn) (h : noCompactPatternMatchesZero compact) :
    decode compact std 0 RV32I = .error 0 := by
  rw [decode, if_pos (by decide)]
  have hnone : compact.find? (fun icls => icls.cmatch 0) = none := by
    rw [List.find?_eq_none]
    intro icls hmem
    simp [h icls hmem]
  rw [hnone]

theorem decode_zero_word_fails_witness :
    noCompactPatternMatchesZero
      [⟨fun w => w &&& 0x3 == 1, fun _ => "c.addi"⟩] ∧
    decode [⟨fun w => w &&& 0x3 == 1, fun _ => "c.addi"⟩] (fun _ => []) 0
      RV32I = .error 0 := by
  have h : noCompactPatternMatchesZero
      [⟨fun w => w &&& 0x3 == 1, fun _ => "c.addi"⟩] := by
    intro icls hmem
    rw [List.mem_singleton] at hmem
    subst hmem
    decide
  exact ⟨h, decode_zero_word_fails _ (fun _ => []) h⟩

/-- C9: `get_reg_name` is total on its documented domain: every index in
`0..31` returns an ABI name (the out-of-range `IndexError` branch is
unreachable there), while a negative index in `[-32, -1]` silently wraps to
the end of the table exactly as Python list indexing does — it agrees with
the entry at `index + 32`, and in particular index `-1` yields `"t6"`. -/
theorem get_reg_name_total_and_wrapping :
    (∀ i : Int, 0 ≤ i → i ≤ 31 → (get_reg_name i).isSome) ∧
    (∀ i : Int, -32 ≤ i → i ≤ -1 → get_reg_name i = get_reg_name (i + 32)) ∧
    get_reg_name (-1) = some "t6" := by
  have hlen : reg_name.length = 32 := rfl
  refine ⟨?_, ?_, by decide⟩
  · intro i h0 h31
    rw [get_reg_name, if_pos ⟨h0, by omega⟩]
    rw [List.get?_eq_get (by omega)]
    rfl
  · intro i hlo hhi
    rw [get_reg_name, get_reg_name,
      if_neg (by omega), if_pos ⟨by omega, by omega⟩,
      if_pos ⟨by omega, by omega⟩]

theorem get_reg_name_total_and_wrapping_witness :
    (get_reg_name 31).isSome ∧ get_reg_name (-32) = get_reg_name 0 :=
  ⟨get_reg_name_total_and_wrapping.1 31 (by decide) (by decide),
   by
    have h := get_reg_name_total_and_wrapping.2.1 (-32) (by decide) (by decide)
    simpa using h⟩

/-! ## All-or-nothing assembly (C4) -/

theorem exceptErrBind {ε α β : Type} (e : ε) (k : α → Except ε β) :
    (Except.error e >>= k) = Except.error e := rfl

/-- Every external lookup one render pass performs, in the order the source
performs them: the timestamp resolution of `main`, the value / front-status /
rear-status lookups for each of the 32 registers, the program-counter lookup,
and the memory lookups at the non-negative window addresses. -/
def assemblyLookupsOk (waveform : Waveform) (vcd_header : VcdHeader)
    (cursor : Nat) : Prop :=
  ∃ ts, waveform.search_timestamp cursor WaveformSearchModeBefore = some ts ∧
    (∀ reg, reg < 32 →
      (∃ v, lookupValue waveform vcd_header (get_reg_path reg) ts = .ok v) ∧
      (∃ v, lookupValue waveform vcd_header (get_reg_status_front_path reg)
        ts = .ok v) ∧
      (∃ v, lookupValue waveform vcd_header (get_reg_status_rear_path reg)
        ts = .ok v)) ∧
    (∃ pc, lookupValue waveform vcd_header get_pc_path ts = .ok pc ∧
      ∀ i : Nat, i < 7 → ¬((pc : Int) + ((i : Int) - 3) < 0) →
        ∃ v, lookupValue waveform vcd_header
          (get_mem_path ((pc : Int) + ((i : Int) - 3))) ts = .ok v)

theorem reg_info_step_ok (waveform : Waveform) (vcd_header : VcdHeader)
    (ts line : Nat) (b b' : Buffer) (reg : Nat)
    (h : reg_info_step waveform vcd_header ts line b reg = .ok b') :
    (∃ v, lookupValue waveform vcd_header (get_reg_path reg) ts = .ok v) ∧
    (∃ v, lookupValue waveform vcd_header (get_reg_status_front_path reg) ts
      = .ok v) ∧
    (∃ v, lookupValue waveform vcd_header (get_reg_status_rear_path reg) ts
      = .ok v) := by
  rw [reg_info_step] at h
  cases h1 : lookupValue waveform vcd_header (get_reg_path reg) ts with
  | error e => rw [h1, exceptErrBind] at h; cases h
  | ok v1 =>
    rw [h1, exceptOkBind] at h
    cases h2 : lookupValue waveform vcd_header (get_reg_status_front_path reg)
        ts with
    | error e => rw [h2, exceptErrBind] at h; cases h
    | ok v2 =>
      rw [h2, exceptOkBind] at h
      cases h3 : lookupValue waveform vcd_header
          (get_reg_status_rear_path reg) ts with
      | error e => rw [h3, exceptErrBind] at h; cases h
      | ok v3 => exact ⟨⟨v1, rfl⟩, ⟨v2, rfl⟩, ⟨v3, rfl⟩⟩

/-- A successful monadic fold means every step would have succeeded: each
element's success predicate (which must not depend on the buffer) holds. -/
theorem foldlM_ok_mem {α : Type} (step : Buffer → α → Except GeckoError Buffer)
    (P : α → Prop)
    (hstep : ∀ b a b', step b a = .ok b' → P a) :
    ∀ (l : List α) (b b'' : Buffer),
      l.foldlM step b = .ok b'' → ∀ a ∈ l, P a := by
  intro l
  induction l with
  | nil => intro b b'' _ a ha; cases ha
  | cons a l ih =>
    intro b b'' hok x hx
    rw [List.foldlM_cons] at hok
    cases hstep' : step b a with
    | error e => rw [hstep', exceptErrBind] at hok; cases hok
    | ok b1 =>
      rw [hstep', exceptOkBind] at hok
      rcases List.mem_cons.mp hx with rfl | hx'
      · exact hstep b x b1 hstep'
      · exact ih b1 b'' hok x hx'

theorem inst_info_step_ok (compact : List CInsn) (std : Variant → List SInsn)
    (waveform : Waveform) (vcd_header : VcdHeader) (pc ts line : Nat)
    (b b' : Buffer) (i : Nat)
    (h : inst_info_step compact std waveform vcd_header pc ts line b i
      = .ok b') :
    ¬((pc : Int) + ((i : Int) - 3) < 0) →
      ∃ v, lookupValue waveform vcd_header
        (get_mem_path ((pc : Int) + ((i : Int) - 3))) ts = .ok v := by
  intro hneg
  rw [inst_info_step] at h
  rw [if_neg hneg] at h
  cases hm : lookupValue waveform vcd_header
      (get_mem_path ((pc : Int) + ((i : Int) - 3))) ts with
  | error e => rw [hm, exceptErrBind] at h; cases h
  | ok v => exact ⟨v, rfl⟩

theorem get_instruction_info_ok (compact : List CInsn)
    (std : Variant → List SInsn) (waveform : Waveform)
    (vcd_header : VcdHeader) (b b' : Buffer) (ts line : Nat)
    (h : get_instruction_info compact std waveform vcd_header b ts line
      = .ok b') :
    ∃ pc, lookupValue waveform vcd_header get_pc_path ts = .ok pc ∧
      ∀ i : Nat, i < 7 → ¬((pc : Int) + ((i : Int) - 3) < 0) →
        ∃ v, lookupValue waveform vcd_header
          (get_mem_path ((pc : Int) + ((i : Int) - 3))) ts = .ok v := by
  rw [get_instruction_info] at h
  cases hpc : lookupValue waveform vcd_header get_pc_path ts with
  | error e => rw [hpc, exceptErrBind] at h; cases h
  | ok pc =>
    rw [hpc, exceptOkBind] at h
    refine ⟨pc, rfl, ?_⟩
    intro i hi hneg
    exact foldlM_ok_mem _
      (fun (j : Nat) => ¬((pc : Int) + ((j : Int) - 3) < 0) →
        ∃ v, lookupValue waveform vcd_header
          (get_mem_path ((pc : Int) + ((j : Int) - 3))) ts = .ok v)
      (fun b1 a b2 hstep =>
        inst_info_step_ok compact std waveform vcd_header pc ts line b1 b2 a
          hstep)
      (List.range 7) _ b' h i (List.mem_range.mpr hi) hneg

theorem get_reg_info_ok (waveform : Waveform) (vcd_header : VcdHeader)
    (b b' : Buffer) (ts line : Nat)
    (h : get_reg_info waveform vcd_header b ts line = .ok b') :
    ∀ reg, reg < 32 →
      (∃ v, lookupValue waveform vcd_header (get_reg_path reg) ts = .ok v) ∧
      (∃ v, lookupValue waveform vcd_header (get_reg_status_front_path reg)
        ts = .ok v) ∧
      (∃ v, lookupValue waveform vcd_header (get_reg_status_rear_path reg)
        ts = .ok v) := by
  intro reg hreg
  exact foldlM_ok_mem _
    (fun reg =>
      (∃ v, lookupValue waveform vcd_header (get_reg_path reg) ts = .ok v) ∧
      (∃ v, lookupValue waveform vcd_header (get_reg_status_front_path reg)
        ts = .ok v) ∧
      (∃ v, lookupValue waveform vcd_header (get_reg_status_rear_path reg)
        ts = .ok v))
    (fun b1 a b2 hstep =>
      reg_info_step_ok waveform vcd_header ts line b1 b2 a hstep)
    (List.range 32) b b' h reg (List.mem_range.mpr hreg)

theorem main_ok_lookups (compact : List CInsn) (std : Variant → List SInsn)
    (buffer : Buffer) (waveform : Waveform) (vcd_header : VcdHeader)
    (cursor : Nat) (b : Buffer)
    (h : Gecko.main compact std buffer waveform vcd_header cursor = .ok b) :
    assemblyLookupsOk waveform vcd_header cursor := by
  rw [Gecko.main] at h
  cases hts : waveform.search_timestamp cursor WaveformSearchModeBefore with
  | none => rw [hts] at h; cases h
  | some ts =>
    rw [hts] at h
    have h' : (get_reg_info waveform vcd_header
        (writeString
          (writeString buffer 0 1
            ("Timestamp:       " ++ toString (waveform.get_timestamp ts)))
          0 2 ("Timestamp Index: " ++ toString ts)) ts 8 >>= fun buffer =>
        get_instruction_info compact std waveform vcd_header buffer ts 20)
        = .ok b := h
    clear h
    rename' h' => h
    refine ⟨ts, hts, ?_, ?_⟩
    · cases hreg : get_reg_info waveform vcd_header
          (writeString
            (writeString buffer 0 1
              ("Timestamp:       " ++ toString (waveform.get_timestamp ts)))
            0 2 ("Timestamp Index: " ++ toString ts)) ts 8 with
      | error e => rw [hreg, exceptErrBind] at h; cases h
      | ok b1 => exact get_reg_info_ok waveform vcd_header _ b1 ts 8 hreg
    · cases hreg : get_reg_info waveform vcd_header
          (writeString
            (writeString buffer 0 1
              ("Timestamp:       " ++ toString (waveform.get_timestamp ts)))
            0 2 ("Timestamp Index: " ++ toString ts)) ts 8 with
      | error e => rw [hreg, exceptErrBind] at h; cases h
      | ok b1 =>
        rw [hreg, exceptOkBind] at h
        exact get_instruction_info_ok compact std waveform vcd_header b1 b ts
          20 h

/-- C4: state assembly is all-or-nothing.  If the timestamp resolution
returns nothing, `main` fails with the timestamp-not-found error; and if any
external lookup of the pass (timestamp resolution, header variable lookup,
or waveform value lookup — `assemblyLookupsOk` enumerates them all) returns
nothing, `main` returns a named `GeckoError` (one of timestamp / signal /
value not found) instead of producing any buffer: no partial snapshot is
ever returned. -/
theorem assembly_all_or_nothing (compact : List CInsn)
    (std : Variant → List SInsn) (buffer : Buffer) (waveform : Waveform)
    (vcd_header : VcdHeader) (cursor : Nat) :
    (waveform.search_timestamp cursor WaveformSearchModeBefore = none →
      Gecko.main compact std buffer waveform vcd_header cursor =
        .error .timestampNotFound) ∧
    (¬ assemblyLookupsOk waveform vcd_header cursor →
      ∃ e : GeckoError,
        Gecko.main compact std buffer waveform vcd_header cursor =
          .error e) := by
  constructor
  · intro hnone
    rw [Gecko.main, hnone]
    rfl
  · intro hnot
    cases hmain : Gecko.main compact std buffer waveform vcd_header cursor with
    | error e => exact ⟨e, rfl⟩
    | ok b =>
      exact absurd
        (main_ok_lookups compact std buffer waveform vcd_header cursor b
          hmain) hnot

theorem assembly_all_or_nothing_witness :
    Gecko.main [] (fun _ => []) ⟨80, []⟩
        ⟨fun _ _ => none, id, fun _ _ => none⟩ ⟨fun _ => none⟩ 0 =
      .error .timestampNotFound ∧
    ∃ e : GeckoError,
      Gecko.main [] (fun _ => []) ⟨80, []⟩
          ⟨fun _ _ => none, id, fun _ _ => none⟩ ⟨fun _ => none⟩ 0 =
        .error e :=
  ⟨(assembly_all_or_nothing [] (fun _ => []) ⟨80, []⟩
      ⟨fun _ _ => none, id, fun _ _ => none⟩ ⟨fun _ => none⟩ 0).1 rfl,
   (assembly_all_or_nothing [] (fun _ => []) ⟨80, []⟩
      ⟨fun _ _ => none, id, fun _ _ => none⟩ ⟨fun _ => none⟩ 0).2
     (fun h => by
       rcases h with ⟨ts, hts, _⟩
       cases hts)⟩

/-! ## Cell-membership bookkeeping for the layout claims -/

theorem toListAppend (s t : String) :
    (s ++ t).toList = s.toList ++ t.toList := rfl

theorem getD_append_left (l1 l2 : List Char) (k : Nat) (h : k < l1.length)
    (d : Char) : (l1 ++ l2).getD k d = l1.getD k d := by
  rw [List.getD_eq_getElem _ _ (by simp; omega), List.getD_eq_getElem _ _ h]
  exact List.getElem_append_left h

theorem stringWrites_mem (x0 y : Nat) (s : String) (k : Nat)
    (hk : k < s.toList.length) :
    (x0 + k, y, s.toList.getD k ' ') ∈ stringWrites x0 y s := by
  rw [stringWrites]
  refine List.mem_map.mpr ⟨(k, s.toList.getD k ' '), ?_, rfl⟩
  rw [List.mk_mem_enum_iff_getElem?, List.getElem?_eq_getElem hk,
    List.getD_eq_getElem _ _ hk]

theorem stringWrites_shape (x0 y : Nat) (s : String) (c : Nat × Nat × Char)
    (hc : c ∈ stringWrites x0 y s) : c.2.1 = y ∧ x0 ≤ c.1 := by
  rw [stringWrites] at hc
  rcases List.mem_map.mp hc with ⟨p, _, rfl⟩
  exact ⟨rfl, Nat.le_add_right _ _⟩

theorem stringWrites_col_zero (y yy : Nat) (s : String) (c2 : Char)
    (hc : (0, yy, c2) ∈ stringWrites 0 y s) :
    s.toList[0]? = some c2 := by
  rw [stringWrites] at hc
  rcases List.mem_map.mp hc with ⟨⟨i, x⟩, hp, heq⟩
  simp only [Prod.mk.injEq] at heq
  obtain ⟨h1, _, h3⟩ := heq
  have hi : i = 0 := by omega
  subst hi
  subst h3
  exact List.mk_mem_enum_iff_getElem?.mp hp

theorem headerRowWrites_mem (w line : Nat) (h : String) (x : Nat)
    (hx : x < w) :
    (x, line, h.toList.getD x '-') ∈ headerRowWrites w line h := by
  rw [headerRowWrites]
  exact List.mem_map.mpr ⟨x, List.mem_range.mpr hx, rfl⟩

theorem headerRowWrites_shape (w line : Nat) (h : String)
    (c : Nat × Nat × Char) (hc : c ∈ headerRowWrites w line h) :
    c.2.1 = line ∧ c.2.2 = h.toList.getD c.1 '-' := by
  rw [headerRowWrites] at hc
  rcases List.mem_map.mp hc with ⟨x, _, rfl⟩
  exact ⟨rfl, rfl⟩

theorem regPanelWrites_rows (f : String → Nat) (w line : Nat)
    (c : Nat × Nat × Char) (hc : c ∈ regPanelWrites f w line) :
    c.2.1 = line ∨ (line + 1 ≤ c.2.1 ∧ c.2.1 ≤ line + 8) := by
  rw [regPanelWrites] at hc
  rcases List.mem_flatten.mp hc with ⟨seg, hseg, hcseg⟩
  rcases List.mem_map.mp hseg with ⟨r, _, rfl⟩
  rw [regWrites] at hcseg
  rcases List.mem_append.mp hcseg with hh | hs
  · exact Or.inl (headerRowWrites_shape _ _ _ _ hh).1
  · right
    have hrow := (stringWrites_shape _ _ _ _ hs).1
    have hr8 : r % 8 < 8 := Nat.mod_lt _ (by norm_num)
    omega

theorem instPanelWrites_rows (compact : List CInsn)
    (std : Variant → List SInsn) (f : String → Nat) (w line pc : Nat)
    (c : Nat × Nat × Char) (hc : c ∈ instPanelWrites compact std f w line pc) :
    c.2.1 = line ∨ (line + 1 ≤ c.2.1 ∧ c.2.1 ≤ line + 7) := by
  rw [instPanelWrites] at hc
  rcases List.mem_append.mp hc with hh | hs
  · exact Or.inl (headerRowWrites_shape _ _ _ _ hh).1
  · rcases List.mem_flatten.mp hs with ⟨seg, hseg, hcseg⟩
    rcases List.mem_map.mp hseg with ⟨i, hi, rfl⟩
    rw [instRowWrites] at hcseg
    by_cases hneg : (pc : Int) + ((i : Int) - 3) < 0
    · rw [if_pos hneg] at hcseg; cases hcseg
    · rw [if_neg hneg] at hcseg
      right
      have hrow := (stringWrites_shape _ _ _ _ hcseg).1
      have hi7 : i < 7 := List.mem_range.mp hi
      omega

/-- The register message of register `r` under valuation `f`. -/
def regInfoStr (f : String → Nat) (r : Nat) : String :=
  reg_info_string r (f (get_reg_path r)) (f (get_reg_status_front_path r))
    (f (get_reg_status_rear_path r))

theorem regWrites_eq (f : String → Nat) (w line r : Nat) :
    regWrites f w line r =
      headerRowWrites w line "--Registers" ++
        stringWrites ((r / 8) * 32) (r % 8 + line + 1) (regInfoStr f r) := rfl

/-- C8: for every register index `r < 32`, the register panel writes `r`'s
formatted cell starting at grid column `(r / 8) * 32` — its `k`-th character
lands at column `(r / 8) * 32 + k` — on row `r % 8 + line + 1`, i.e. at
relative row `r % 8` below the panel's first data row; in particular register
index 9 renders in column block `9 / 8 = 1` (starting column 32) at relative
row `9 % 8 = 1`. -/
theorem reg_panel_layout (f : String → Nat) (g : Nat → Nat)
    (t0 ts line : Nat) (b : Buffer) :
    ∃ b', get_reg_info (envWaveform g t0) (envHeader f) b ts line = .ok b' ∧
      (∀ r : Nat, r < 32 → ∀ k : Nat, k < (regInfoStr f r).toList.length →
        ((r / 8) * 32 + k, r % 8 + line + 1,
          (regInfoStr f r).toList.getD k ' ') ∈ b'.cells) ∧
      (9 / 8) * 32 = 32 ∧ 9 % 8 = 1 := by
  refine ⟨_, get_reg_info_env f g t0 ts line b, ?_, by norm_num, by norm_num⟩
  intro r hr k hk
  show _ ∈ b.cells ++ regPanelWrites f b.width line
  refine List.mem_append_right _ ?_
  rw [regPanelWrites]
  refine List.mem_flatten.mpr ⟨regWrites f b.width line r,
    List.mem_map.mpr ⟨r, List.mem_range.mpr hr, rfl⟩, ?_⟩
  rw [regWrites_eq]
  exact List.mem_append_right _ (stringWrites_mem _ _ _ k hk)

theorem reg_panel_layout_witness :
    ∃ b', get_reg_info (envWaveform id 0) (envHeader (fun _ => 0)) ⟨80, []⟩
        0 8 = .ok b' ∧
      ((9 / 8) * 32 + 0, 9 % 8 + 8 + 1,
        (regInfoStr (fun _ => 0) 9).toList.getD 0 ' ') ∈ b'.cells := by
  obtain ⟨b', heq, hmem, _, _⟩ :=
    reg_panel_layout (fun _ => 0) id 0 0 8 ⟨80, []⟩
  exact ⟨b', heq, hmem 9 (by norm_num) 0 (by decide)⟩

/-- The absolute window address `pc_value + offset` of loop iteration `i`
(`offset = i - 3`). -/
def windowAddr (pc_value i : Nat) : Int := (pc_value : Int) + ((i : Int) - 3)

/-- The text of instruction-window row `i` under valuation `f` (for a
non-negative address): marker, formatted address, formatted word, and the
decoded instruction or its `<unknown>` placeholder. -/
def instRowStr (compact : List CInsn) (std : Variant → List SInsn)
    (f : String → Nat) (pc_value i : Nat) : String :=
  inst_info_string (if (i : Int) - 3 = 0 then ">" else "-")
    (windowAddr pc_value i) (f (get_mem_path (windowAddr pc_value i)))
    (instDisplay compact std (f (get_mem_path (windowAddr pc_value i))))

theorem instRowWrites_eq (compact : List CInsn) (std : Variant → List SInsn)
    (f : String → Nat) (line pc i : Nat) :
    instRowWrites compact std f line pc i =
      if windowAddr pc i < 0 then []
      else stringWrites 0 (line + i + 1) (instRowStr compact std f pc i) := rfl

/-- C3: in the instruction-window renderer a decode failure is recovered
per word and never propagated: for every catalog and every memory content the
renderer returns `.ok` (it never aborts), every rendered row of the window is
written in full, and the instruction text of a word whose decode fails is the
literal `"<unknown>"` placeholder (substituted by the `try/except` of lines
149-152), so the failure affects only the single instruction being
formatted. -/
theorem inst_window_decode_failure_recovery (compact : List CInsn)
    (std : Variant → List SInsn) (f : String → Nat) (g : Nat → Nat)
    (t0 ts line : Nat) (b : Buffer) :
    ∃ b', get_instruction_info compact std (envWaveform g t0) (envHeader f) b
        ts line = .ok b' ∧
      ∀ i : Nat, i < 7 → ¬(windowAddr (f get_pc_path) i < 0) →
        (∀ k : Nat,
          k < (instRowStr compact std f (f get_pc_path) i).toList.length →
          (k, line + i + 1,
            (instRowStr compact std f (f get_pc_path) i).toList.getD k ' ')
            ∈ b'.cells) ∧
        (∀ e, decode compact std
            (f (get_mem_path (windowAddr (f get_pc_path) i))) RV32I =
              .error e →
          instDisplay compact std
            (f (get_mem_path (windowAddr (f get_pc_path) i))) =
            "<unknown>") := by
  refine ⟨_, get_instruction_info_env compact std f g t0 ts line b, ?_⟩
  intro i hi hneg
  constructor
  · intro k hk
    show _ ∈ b.cells ++ instPanelWrites compact std f b.width line
      (f get_pc_path)
    refine List.mem_append_right _ ?_
    rw [instPanelWrites]
    refine List.mem_append_right _ ?_
    refine List.mem_flatten.mpr
      ⟨instRowWrites compact std f line (f get_pc_path) i,
        List.mem_map.mpr ⟨i, List.mem_range.mpr hi, rfl⟩, ?_⟩
    rw [instRowWrites_eq, if_neg hneg]
    have h := stringWrites_mem 0 (line + i + 1)
      (instRowStr compact std f (f get_pc_path) i) k hk
    simpa using h
  · intro e he
    rw [instDisplay, he]

theorem inst_window_decode_failure_recovery_witness :
    ∃ b', get_instruction_info [] (fun _ => []) (envWaveform id 0)
        (envHeader (fun _ => 0)) ⟨80, []⟩ 0 20 = .ok b' ∧
      instDisplay [] (fun _ => []) 0 = "<unknown>" := by
  obtain ⟨b', heq, hall⟩ := inst_window_decode_failure_recovery []
    (fun _ => []) (fun _ => 0) id 0 0 20 ⟨80, []⟩
  refine ⟨b', heq, ?_⟩
  exact (hall 3 (by norm_num) (by decide)).2 0 rfl

theorem instRowStr_head (compact : List CInsn) (std : Variant → List SInsn)
    (f : String → Nat) (pc i : Nat) :
    (instRowStr compact std f pc i).toList.getD 0 ' ' =
      (if i = 3 then '>' else '-') ∧
    0 < (instRowStr compact std f pc i).toList.length := by
  rw [instRowStr, inst_info_string]
  by_cases h3 : i = 3
  · rw [if_pos (show (i : Int) - 3 = 0 by omega), if_pos h3]
    exact ⟨rfl, by simp [toListAppend]⟩
  · rw [if_neg (show ¬((i : Int) - 3 = 0) by omega), if_neg h3]
    exact ⟨rfl, by simp [toListAppend]⟩

/-- C7: in the rendered instruction panel (starting from an empty grid),
every rendered window row's first character — the cell at column 0 of row
`line + i + 1` — is `'>'` when the offset `i - 3` is zero and `'-'`
otherwise; and conversely, the only column-0 cell holding `'>'` anywhere in
the rendered output is the one of the offset-0 row (row `line + 3 + 1`). -/
theorem inst_panel_marker (compact : List CInsn) (std : Variant → List SInsn)
    (f : String → Nat) (g : Nat → Nat) (t0 ts line w : Nat) :
    ∃ b', get_instruction_info compact std (envWaveform g t0) (envHeader f)
        ⟨w, []⟩ ts line = .ok b' ∧
      (∀ i : Nat, i < 7 → ¬(windowAddr (f get_pc_path) i < 0) →
        (0, line + i + 1, if i = 3 then '>' else '-') ∈ b'.cells) ∧
      (∀ y c2, (0, y, c2) ∈ b'.cells → c2 = '>' → y = line + 3 + 1) := by
  refine ⟨_, get_instruction_info_env compact std f g t0 ts line ⟨w, []⟩,
    ?_, ?_⟩
  · intro i hi hneg
    show _ ∈ [] ++ instPanelWrites compact std f w line (f get_pc_path)
    refine List.mem_append_right _ ?_
    rw [instPanelWrites]
    refine List.mem_append_right _ ?_
    refine List.mem_flatten.mpr
      ⟨instRowWrites compact std f line (f get_pc_path) i,
        List.mem_map.mpr ⟨i, List.mem_range.mpr hi, rfl⟩, ?_⟩
    rw [instRowWrites_eq, if_neg hneg]
    obtain ⟨hhead, hlen⟩ := instRowStr_head compact std f (f get_pc_path) i
    have h := stringWrites_mem 0 (line + i + 1)
      (instRowStr compact std f (f get_pc_path) i) 0 hlen
    rw [hhead] at h
    simpa using h
  · intro y c2 hc hgt
    subst hgt
    rcases List.mem_append.mp hc with hnil | hpanel
    · cases hnil
    · rw [instPanelWrites] at hpanel
      rcases List.mem_append.mp hpanel with hh | hs
      · obtain ⟨_, hchar⟩ := headerRowWrites_shape w line "--Instructions"
          _ hh
        simp only at hchar
        exact absurd hchar.symm (by decide)
      · rcases List.mem_flatten.mp hs with ⟨seg, hseg, hcseg⟩
        rcases List.mem_map.mp hseg with ⟨i, hi, rfl⟩
        rw [instRowWrites_eq] at hcseg
        by_cases hneg : windowAddr (f get_pc_path) i < 0
        · rw [if_pos hneg] at hcseg; cases hcseg
        · rw [if_neg hneg] at hcseg
          have hrow := (stringWrites_shape _ _ _ _ hcseg).1
          have h0 := stringWrites_col_zero _ _ _ _ hcseg
          obtain ⟨hhead, hlen⟩ := instRowStr_head compact std f
            (f get_pc_path) i
          rw [List.getElem?_eq_getElem hlen] at h0
          rw [List.getD_eq_getElem _ ' ' hlen] at hhead
          have hchar : (if i = 3 then '>' else '-') = '>' := by
            rw [← hhead]
            exact (Option.some.injEq _ _).mp h0
          have hi3 : i = 3 := by
            by_contra hne
            rw [if_neg hne] at hchar
            exact absurd hchar (by decide)
          subst hi3
          simpa using hrow

theorem inst_panel_marker_witness :
    ∃ b', get_instruction_info [] (fun _ => []) (envWaveform id 0)
        (envHeader (fun _ => 5)) ⟨80, []⟩ 0 20 = .ok b' ∧
      (0, 20 + 3 + 1, '>') ∈ b'.cells := by
  obtain ⟨b', heq, hfwd, _⟩ := inst_panel_marker [] (fun _ => [])
    (fun _ => 5) id 0 0 20 80
  refine ⟨b', heq, ?_⟩
  have h := hfwd 3 (by norm_num) (by decide)
  simpa using h

/-- C6: window offsets whose absolute address `pc + offset` is negative are
skipped entirely: no cell of that offset's row is ever written, the rendered
output does not depend on the valuation of any memory path at a negative
address (no memory query is issued for it), and every offset with a
non-negative absolute address still renders its row. -/
theorem inst_window_skips_negative (compact : List CInsn)
    (std : Variant → List SInsn) (f f' : String → Nat) (g : Nat → Nat)
    (t0 ts line w : Nat)
    (hpc : f get_pc_path = f' get_pc_path)
    (hmem : ∀ a : Int, 0 ≤ a → f (get_mem_path a) = f' (get_mem_path a)) :
    ∃ b', get_instruction_info compact std (envWaveform g t0) (envHeader f)
        ⟨w, []⟩ ts line = .ok b' ∧
      (∀ i : Nat, i < 7 → windowAddr (f get_pc_path) i < 0 →
        ∀ x c2, (x, line + i + 1, c2) ∉ b'.cells) ∧
      (∀ i : Nat, i < 7 → ¬(windowAddr (f get_pc_path) i < 0) →
        ∃ c2, (0, line + i + 1, c2) ∈ b'.cells) ∧
      get_instruction_info compact std (envWaveform g t0) (envHeader f)
          ⟨w, []⟩ ts line =
        get_instruction_info compact std (envWaveform g t0) (envHeader f')
          ⟨w, []⟩ ts line := by
  refine ⟨_, get_instruction_info_env compact std f g t0 ts line ⟨w, []⟩,
    ?_, ?_, ?_⟩
  · intro i hi hneg x c2 hc
    rcases List.mem_append.mp hc with hnil | hpanel
    · cases hnil
    · rw [instPanelWrites] at hpanel
      rcases List.mem_append.mp hpanel with hh | hs
      · have hrow := (headerRowWrites_shape _ _ _ _ hh).1
        simp only at hrow
        omega
      · rcases List.mem_flatten.mp hs with ⟨seg, hseg, hcseg⟩
        rcases List.mem_map.mp hseg with ⟨j, hj, rfl⟩
        rw [instRowWrites_eq] at hcseg
        by_cases hnegj : windowAddr (f get_pc_path) j < 0
        · rw [if_pos hnegj] at hcseg; cases hcseg
        · rw [if_neg hnegj] at hcseg
          have hrow := (stringWrites_shape _ _ _ _ hcseg).1
          simp only at hrow
          have hij : j = i := by omega
          subst hij
          exact absurd hneg hnegj
  · intro i hi hneg
    refine ⟨(instRowStr compact std f (f get_pc_path) i).toList.getD 0 ' ',
      ?_⟩
    show _ ∈ [] ++ instPanelWrites compact std f w line (f get_pc_path)
    refine List.mem_append_right _ ?_
    rw [instPanelWrites]
    refine List.mem_append_right _ ?_
    refine List.mem_flatten.mpr
      ⟨instRowWrites compact std f line (f get_pc_path) i,
        List.mem_map.mpr ⟨i, List.mem_range.mpr hi, rfl⟩, ?_⟩
    rw [instRowWrites_eq, if_neg hneg]
    have h := stringWrites_mem 0 (line + i + 1)
      (instRowStr compact std f (f get_pc_path) i) 0
      (instRowStr_head compact std f (f get_pc_path) i).2
    simpa using h
  · rw [get_instruction_info_env compact std f g t0 ts line ⟨w, []⟩,
      get_instruction_info_env compact std f' g t0 ts line ⟨w, []⟩]
    have hpanel : instPanelWrites compact std f w line (f get_pc_path) =
        instPanelWrites compact std f' w line (f' get_pc_path) := by
      rw [instPanelWrites, instPanelWrites, ← hpc]
      congr 1
      congr 1
      apply List.map_congr_left
      intro i _
      rw [instRowWrites_eq, instRowWrites_eq]
      by_cases hneg : windowAddr (f get_pc_path) i < 0
      · rw [if_pos hneg, if_pos hneg]
      · rw [if_neg hneg, if_neg hneg, instRowStr, instRowStr,
          hmem _ (by omega)]
    rw [hpanel]

theorem inst_window_skips_negative_witness :
    ∃ b', get_instruction_info [] (fun _ => []) (envWaveform id 0)
        (envHeader (fun _ => 0)) ⟨80, []⟩ 0 20 = .ok b' ∧
      (∀ x c2, (x, 20 + 0 + 1, c2) ∉ b'.cells) ∧
      (∃ c2, (0, 20 + 3 + 1, c2) ∈ b'.cells) := by
  obtain ⟨b', heq, hskip, hrender, _⟩ := inst_window_skips_negative []
    (fun _ => []) (fun _ => 0) (fun _ => 0) id 0 0 20 80 rfl
    (fun _ _ => rfl)
  exact ⟨b', heq, hskip 0 (by norm_num) (by decide),
    hrender 3 (by norm_num) (by decide)⟩

/-- C10: one full render pass (starting from an empty grid) writes only a
fixed set of rows — the timestamp header at rows 1 and 2, the register panel
header at row 8 with its data at rows 9..16, and the instruction panel
header at row 20 with its data at rows 21..27 — so rows 0, 3..7, 17..19 and
everything at or beyond 28 are never written and the panels never overwrite
each other.  Rows 1 and 2 are always written; the two dash-header rows are
written on any grid of positive width; and every register data row 9..16 is
written (register `r` starts at column `(r / 8) * 32` of row
`r % 8 + 9`). -/
theorem render_pass_row_partition (compact : List CInsn)
    (std : Variant → List SInsn) (f : String → Nat) (g : Nat → Nat)
    (t0 w cursor : Nat) (hw : 0 < w) :
    ∃ b', Gecko.main compact std ⟨w, []⟩ (envWaveform g t0) (envHeader f)
        cursor = .ok b' ∧
      (∀ c ∈ b'.cells, c.2.1 = 1 ∨ c.2.1 = 2 ∨ c.2.1 = 8 ∨
        (9 ≤ c.2.1 ∧ c.2.1 ≤ 16) ∨ c.2.1 = 20 ∨
        (21 ≤ c.2.1 ∧ c.2.1 ≤ 27)) ∧
      (0, 1, 'T') ∈ b'.cells ∧ (0, 2, 'T') ∈ b'.cells ∧
      (0, 8, '-') ∈ b'.cells ∧ (0, 20, '-') ∈ b'.cells ∧
      (∀ r : Nat, r < 32 → ((r / 8) * 32, r % 8 + 9, 'x') ∈ b'.cells) := by
  have hmem8 : ∀ r : Nat, r < 32 →
      ((r / 8) * 32, r % 8 + 9, 'x') ∈ regPanelWrites f w 8 := by
    intro r hr
    rw [regPanelWrites]
    refine List.mem_flatten.mpr ⟨regWrites f w 8 r,
      List.mem_map.mpr ⟨r, List.mem_range.mpr hr, rfl⟩, ?_⟩
    rw [regWrites_eq]
    refine List.mem_append_right _ ?_
    have hlen : 0 < (regInfoStr f r).toList.length := by
      rw [regInfoStr, reg_info_string, ljust]
      simp [toListAppend]
    have h := stringWrites_mem ((r / 8) * 32) (r % 8 + 8 + 1)
      (regInfoStr f r) 0 hlen
    have hhead : (regInfoStr f r).toList.getD 0 ' ' = 'x' := rfl
    rw [hhead] at h
    have hrow : r % 8 + 8 + 1 = r % 8 + 9 := by omega
    rw [hrow] at h
    simpa using h
  have hhdr8 : (0, 8, '-') ∈ regPanelWrites f w 8 := by
    rw [regPanelWrites]
    refine List.mem_flatten.mpr ⟨regWrites f w 8 0,
      List.mem_map.mpr ⟨0, List.mem_range.mpr (by norm_num), rfl⟩, ?_⟩
    rw [regWrites_eq]
    exact List.mem_append_left _ (headerRowWrites_mem w 8 "--Registers" 0 hw)
  have hhdr20 : (0, 20, '-') ∈
      instPanelWrites compact std f w 20 (f get_pc_path) := by
    rw [instPanelWrites]
    exact List.mem_append_left _
      (headerRowWrites_mem w 20 "--Instructions" 0 hw)
  refine ⟨_, main_env compact std f g t0 ⟨w, []⟩ cursor, ?_, ?_, ?_, ?_, ?_,
    ?_⟩
  · intro c hc
    rcases List.mem_append.mp hc with hnil | hmain
    · cases hnil
    · rw [mainWrites] at hmain
      simp only [List.append_assoc] at hmain
      rcases List.mem_append.mp hmain with h1 | hrest
      · exact Or.inl (stringWrites_shape _ _ _ _ h1).1
      rcases List.mem_append.mp hrest with h2 | hrest2
      · exact Or.inr (Or.inl (stringWrites_shape _ _ _ _ h2).1)
      rcases List.mem_append.mp hrest2 with hreg | hinst
      · rcases regPanelWrites_rows f w 8 c hreg with h | h
        · exact Or.inr (Or.inr (Or.inl h))
        · exact Or.inr (Or.inr (Or.inr (Or.inl (by omega))))
      · rcases instPanelWrites_rows compact std f w 20 (f get_pc_path) c
            hinst with h | h
        · exact Or.inr (Or.inr (Or.inr (Or.inr (Or.inl h))))
        · exact Or.inr (Or.inr (Or.inr (Or.inr (Or.inr (by omega)))))
  · show _ ∈ [] ++ mainWrites compact std f g t0 w
    refine List.mem_append_right _ ?_
    rw [mainWrites]
    simp only [List.append_assoc]
    refine List.mem_append_left _ ?_
    have h := stringWrites_mem 0 1
      ("Timestamp:       " ++ toString (g t0)) 0 (by simp [toListAppend])
    simpa using h
  · show _ ∈ [] ++ mainWrites compact std f g t0 w
    refine List.mem_append_right _ ?_
    rw [mainWrites]
    simp only [List.append_assoc]
    refine List.mem_append_right _ (List.mem_append_left _ ?_)
    have h := stringWrites_mem 0 2
      ("Timestamp Index: " ++ toString t0) 0 (by simp [toListAppend])
    simpa using h
  · show _ ∈ [] ++ mainWrites compact std f g t0 w
    refine List.mem_append_right _ ?_
    rw [mainWrites]
    simp only [List.append_assoc]
    exact List.mem_append_right _ (List.mem_append_right _
      (List.mem_append_left _ hhdr8))
  · show _ ∈ [] ++ mainWrites compact std f g t0 w
    refine List.mem_append_right _ ?_
    rw [mainWrites]
    simp only [List.append_assoc]
    exact List.mem_append_right _ (List.mem_append_right _
      (List.mem_append_right _ hhdr20))
  · intro r hr
    show _ ∈ [] ++ mainWrites compact std f g t0 w
    refine List.mem_append_right _ ?_
    rw [mainWrites]
    simp only [List.append_assoc]
    exact List.mem_append_right _ (List.mem_append_right _
      (List.mem_append_left _ (hmem8 r hr)))

theorem render_pass_row_partition_witness :
    ∃ b', Gecko.main [] (fun _ => []) ⟨80, []⟩ (envWaveform id 0)
        (envHeader (fun _ => 0)) 0 = .ok b' ∧
      (0, 1, 'T') ∈ b'.cells ∧ (0, 8, '-') ∈ b'.cells ∧
      (0, 20, '-') ∈ b'.cells := by
  obtain ⟨b', heq, _, ht, _, hreg, hinst, _⟩ := render_pass_row_partition []
    (fun _ => []) (fun _ => 0) id 0 80 0 (by norm_num)
  exact ⟨b', heq, ht, hreg, hinst⟩
